import Mathlib

/-!
Shallow embedding of the breakway gas-delivery backend
(src/public/user/server.js): an Express application over an in-memory
database holding user, order and support-ticket records.  Each route
handler is embedded as a pure function from the database and the request
data to either a typed failure (carrying the HTTP status the server
sends) or the response payload together with the updated database.
Every call the source makes to the clock (Date.now, new Date) is passed
in as an explicit timestamp parameter, in source evaluation order.
-/

/-- JavaScript value of a record field or request-body field as the server
uses them: absent (undefined), null, or a string.  JS strict equality
(===) on these three kinds of values coincides with structural equality:
undefined === undefined, null === null, and equal strings are ===; no
mixed pair is ===. -/
inductive JVal where
  | undef
  | null
  | str (s : String)
  deriving Repr, DecidableEq, Inhabited

/-- JS truthiness of such a value: undefined, null and the empty string are
falsy; every nonempty string is truthy.  Used by the guards
`if (!name || !contact || !password)` (line 57) and `if (!userId)`
(line 32) of the source. -/
def JVal.truthy : JVal → Bool
  | .undef => false
  | .null => false
  | .str s => !(s == "")

/-- JS `contact.includes('@')` (source line 61).  In the server this runs
only after the truthiness check, so the value there is a nonempty string;
on the other kinds the method is never reached. -/
def JVal.hasAt : JVal → Bool
  | .str s => s.data.contains '@'
  | _ => false

/-- A user record of `db.users`.  Registration (lines 66-75) sets every
field; the seeded admin (lines 12-18) leaves mobile, address and
profilePic absent, embedded as `JVal.undef`. -/
structure User where
  id : String
  name : JVal
  email : JVal
  mobile : JVal
  password : JVal
  address : JVal
  profilePic : JVal
  isAdmin : Bool
  deriving Repr, DecidableEq, Inhabited

/-- An order record of `db.orders` (line 116): the spread of the request
body (kept abstract as a key-value list) stamped with the owning user id,
a fresh id `ORD-<now>` and a status string. -/
structure Order where
  payload : List (String × JVal)
  userId : String
  id : String
  status : String
  deriving Repr, DecidableEq, Inhabited

/-- One entry of a support-ticket thread (line 170):
`\x7b from: 'customer', text: message, at: new Date().toISOString() \x7d`.
The source field names `from` and `at` are Lean keywords, hence `sender`
and `at_` here.  Timestamps are embedded as the natural-number instant
the ISO string renders; toISOString is injective on instants, so equality
of the strings is equality of these numbers. -/
structure ThreadEntry where
  sender : String
  text : JVal
  at_ : Nat
  deriving Repr, DecidableEq, Inhabited

/-- A support-ticket record of `db.supportTickets` (line 170). -/
structure Ticket where
  id : String
  userId : String
  name : JVal
  message : JVal
  status : String
  createdAt : Nat
  thread : List ThreadEntry
  deriving Repr, DecidableEq, Inhabited

/-- The in-memory database (lines 9-22). -/
structure Db where
  users : List User
  orders : List Order
  supportTickets : List Ticket
  deriving Repr, DecidableEq, Inhabited

/-- The seeded admin user (lines 12-18): only id, name, email, password and
isAdmin are present on the object literal. -/
def adminUser : User :=
  { id := "U-1670000000000"
    name := JVal.str "Admin"
    email := JVal.str "admin@breakway.com"
    mobile := JVal.undef
    password := JVal.str "admin"
    address := JVal.undef
    profilePic := JVal.undef
    isAdmin := true }

/-- The initial database (lines 9-22): the seeded admin, no orders, no
tickets. -/
def dbInit : Db := { users := [adminUser], orders := [], supportTickets := [] }

/-- Typed request failure, with the HTTP status the server sends:
invalidInput 400, conflict 409, unauthenticated 401, forbidden 403,
notFound 404, invalidState 400. -/
inductive ApiError where
  | invalidInput
  | conflict
  | unauthenticated
  | forbidden
  | notFound
  | invalidState
  deriving Repr, DecidableEq

/-- The predicate of the login lookup (line 82):
`(u.email === contact || u.mobile === contact) && u.password === password`. -/
def loginMatch (contact pw : JVal) (u : User) : Bool :=
  (u.email == contact || u.mobile == contact) && u.password == pw

/-- The user object of a successful login response (line 87): id, name and
coerced admin flag only; no password field exists on it. -/
structure LoginUserView where
  id : String
  name : JVal
  isAdmin : Bool
  deriving Repr, DecidableEq

/-- POST /api/users/login (lines 80-92): find the first user matching
`loginMatch`; 200 with id, name, isAdmin on a hit, else 401. -/
def login (users : List User) (contact pw : JVal) : Except ApiError LoginUserView :=
  match users.find? (loginMatch contact pw) with
  | some u => .ok { id := u.id, name := u.name, isAdmin := u.isAdmin }
  | none => .error .unauthenticated

/-- The user object of a successful register response (line 77): the new id
and name only. -/
structure RegisterUserView where
  id : String
  name : JVal
  deriving Repr, DecidableEq

/-- The user record built by registration (lines 66-75): id `U-<Date.now()>`,
the contact stored as email when it contains `@` and as mobile otherwise
(the other field null), empty address and profilePic, isAdmin false. -/
def registeredUser (name contact pw : JVal) (now : Nat) : User :=
  { id := "U-" ++ toString now
    name := name
    email := if contact.hasAt then contact else JVal.null
    mobile := if contact.hasAt then JVal.null else contact
    password := pw
    address := JVal.str ""
    profilePic := JVal.str ""
    isAdmin := false }

/-- The duplicate-contact check of registration (line 62):
`db.users.some(u => (isEmail ? u.email : u.mobile) === contact)`. -/
def contactTaken (users : List User) (contact : JVal) : Bool :=
  users.any (fun u => (if contact.hasAt then u.email else u.mobile) == contact)

/-- POST /api/users/register (lines 55-78): 400 when any of name, contact,
password is falsy; 409 when the contact is already taken in the
corresponding field; otherwise push the new user and answer 201 with its
id and name.  `now` is the `Date.now()` read of line 67. -/
def register (users : List User) (name contact pw : JVal) (now : Nat) :
    Except ApiError (List User × RegisterUserView) :=
  if !name.truthy || !contact.truthy || !pw.truthy then
    .error .invalidInput
  else if contactTaken users contact then
    .error .conflict
  else
    .ok (users ++ [registeredUser name contact pw now],
         { id := "U-" ++ toString now, name := name })

/-- The authentication middleware (lines 30-41): the `x-user-id` header
(absent ↦ none) must be truthy and name an existing user by exact id
match; otherwise 401. -/
def resolveUser (users : List User) (claim : Option String) : Except ApiError User :=
  match claim with
  | none => .error .unauthenticated
  | some uid =>
    if uid = "" then .error .unauthenticated
    else
      match users.find? (fun u => u.id == uid) with
      | some u => .ok u
      | none => .error .unauthenticated

/-- The admin middleware (lines 44-49) applied to the user the
authentication middleware resolved (so `req.user` is present): 403 unless
`isAdmin`. -/
def requireAdmin (u : User) : Except ApiError Unit :=
  if u.isAdmin then .ok () else .error .forbidden

/-- A user record as the profile routes return it: the rest of the
destructuring `\x7b password, ...userProfile \x7d` (line 97) and
`(\x7b password, ...user \x7d) => user` (line 153).  The type has no
password field, mirroring that the rest object never carries one. -/
structure UserProfileView where
  id : String
  name : JVal
  email : JVal
  mobile : JVal
  address : JVal
  profilePic : JVal
  isAdmin : Bool
  deriving Repr, DecidableEq

/-- Drop the password field of a user record, keeping every other field. -/
def stripPassword (u : User) : UserProfileView :=
  { id := u.id, name := u.name, email := u.email, mobile := u.mobile,
    address := u.address, profilePic := u.profilePic, isAdmin := u.isAdmin }

/-- GET /api/users/profile (lines 94-99): the resolved user minus the
password field. -/
def getProfile (db : Db) (claim : Option String) : Except ApiError UserProfileView := do
  let u ← resolveUser db.users claim
  pure (stripPassword u)

/-- The four request-body fields the profile update destructures
(line 102); a field the caller omitted is `JVal.undef`. -/
structure ProfileBody where
  name : JVal
  email : JVal
  address : JVal
  profilePic : JVal
  deriving Repr, DecidableEq

/-- The record assignment of line 106:
`\x7b ...db.users[userIndex], name, email, address, profilePic \x7d` —
the four body fields overwrite, every other field is spread through. -/
def applyProfileUpdate (b : ProfileBody) (u : User) : User :=
  { u with name := b.name, email := b.email, address := b.address,
           profilePic := b.profilePic }

/-- The findIndex-then-assign of lines 103-106 on the user list: replace
the first user with the given id by its profile update, returning the new
list and the new record; none when no user has the id. -/
def updateFirst (uid : String) (b : ProfileBody) : List User → Option (List User × User)
  | [] => none
  | u :: rest =>
    if u.id == uid then
      some (applyProfileUpdate b u :: rest, applyProfileUpdate b u)
    else
      match updateFirst uid b rest with
      | some (rest', u') => some (u :: rest', u')
      | none => none

/-- PUT /api/users/profile (lines 101-111): re-find the resolved user by id,
overwrite name, email, address, profilePic with the body values, and
answer 200 with the full updated record (`user: db.users[userIndex]`,
line 107, password included); 404 when the id is gone. -/
def updateProfile (db : Db) (claim : Option String) (b : ProfileBody) :
    Except ApiError (Db × User) := do
  let u ← resolveUser db.users claim
  match updateFirst u.id b db.users with
  | some (users', u') => pure ({ db with users := users' }, u')
  | none => .error .notFound

/-- POST /api/orders (lines 115-119): stamp the body with the caller id, a
fresh id `ORD-<Date.now()>` and status placed, push it and return it.  The
`now` argument is the `Date.now()` read of line 116. -/
def createOrder (db : Db) (claim : Option String) (body : List (String × JVal))
    (now : Nat) : Except ApiError (Db × Order) := do
  let u ← resolveUser db.users claim
  let o : Order :=
    { payload := body, userId := u.id, id := "ORD-" ++ toString now, status := "placed" }
  pure ({ db with orders := db.orders ++ [o] }, o)

/-- GET /api/orders (lines 121-124): the orders whose userId is the caller,
in store order. -/
def listOrders (db : Db) (claim : Option String) : Except ApiError (List Order) := do
  let u ← resolveUser db.users claim
  pure (db.orders.filter (fun o => o.userId == u.id))

/-- The findIndex predicate of the cancel route (line 128):
`o.id === orderId && o.userId === req.user.id`. -/
def ocMatch (uid oid : String) (o : Order) : Bool :=
  o.id == oid && o.userId == uid

/-- The findIndex-then-branch of lines 128-139 on the order list: locate the
first order matching `ocMatch`; 404 when none, 400 when its status is not
placed, otherwise set the status to cancelled in place and return the new
list and the updated order. -/
def cancelInOrders (uid oid : String) : List Order → Except ApiError (List Order × Order)
  | [] => .error .notFound
  | o :: rest =>
    if ocMatch uid oid o then
      if o.status = "placed" then
        .ok ({ o with status := "cancelled" } :: rest, { o with status := "cancelled" })
      else
        .error .invalidState
    else
      match cancelInOrders uid oid rest with
      | .ok (rest', o') => .ok (o :: rest', o')
      | .error e => .error e

/-- PUT /api/orders/:orderId/cancel (lines 126-140).  On failure the
database is unchanged: the embedding returns no database on the error
branches, exactly as the source mutates nothing there. -/
def cancelOrder (db : Db) (claim : Option String) (orderId : String) :
    Except ApiError (Db × Order) := do
  let u ← resolveUser db.users claim
  match cancelInOrders u.id orderId db.orders with
  | .ok (orders', o') => pure ({ db with orders := orders' }, o')
  | .error e => .error e

/-- GET /api/admin/stats (lines 144-149): user and order counts, admin
only. -/
def adminStats (db : Db) (claim : Option String) : Except ApiError (Nat × Nat) := do
  let u ← resolveUser db.users claim
  let _ ← requireAdmin u
  pure (db.users.length, db.orders.length)

/-- GET /api/admin/users (lines 151-155): all users with passwords stripped,
admin only. -/
def adminListUsers (db : Db) (claim : Option String) :
    Except ApiError (List UserProfileView) := do
  let u ← resolveUser db.users claim
  let _ ← requireAdmin u
  pure (db.users.map stripPassword)

/-- GET /api/admin/orders (lines 157-159): every order, unfiltered, admin
only. -/
def adminListOrders (db : Db) (claim : Option String) :
    Except ApiError (List Order) := do
  let u ← resolveUser db.users claim
  let _ ← requireAdmin u
  pure db.orders

/-- GET /api/support/tickets (lines 162-165): the tickets whose userId is
the caller. -/
def listTickets (db : Db) (claim : Option String) : Except ApiError (List Ticket) := do
  let u ← resolveUser db.users claim
  pure (db.supportTickets.filter (fun t => t.userId == u.id))

/-- The ticket literal of line 170, built for the resolved user from the
message and the three clock reads. -/
def mkTicket (u : User) (message : JVal) (tId tCreated tAt : Nat) : Ticket :=
  { id := "T-" ++ toString tId, userId := u.id, name := u.name,
    message := message, status := "open", createdAt := tCreated,
    thread := [{ sender := "customer", text := message, at_ := tAt }] }

/-- POST /api/support/tickets (lines 167-173).  The source reads the clock
three times while building the ticket literal, in order: `Date.now()` for
the id, `new Date()` for createdAt, `new Date()` for the thread entry;
they are the parameters `tId`, `tCreated`, `tAt`. -/
def submitTicket (db : Db) (claim : Option String) (message : JVal)
    (tId tCreated tAt : Nat) : Except ApiError (Db × Ticket) := do
  let u ← resolveUser db.users claim
  let t := mkTicket u message tId tCreated tAt
  pure ({ db with supportTickets := db.supportTickets ++ [t] }, t)

/-- Whether a request produced a success response rather than a typed
failure. -/
def isSuccess : Except ApiError α → Bool
  | .ok _ => true
  | .error _ => false

/-- Every later order sharing this order's id and userId has status placed.
The head condition of the order-store invariant. -/
def laterDupsPlaced (a : Order) (os : List Order) : Bool :=
  os.all (fun b => !(b.id == a.id && b.userId == a.userId) || b.status == "placed")

/-- Order-store invariant maintained by the order routes: whenever two
orders share an id and an owner, every one after the first has status
placed — only the first of such a group can ever have been cancelled,
because the cancel route always mutates the first match (line 128). -/
def ordersInv : List Order → Bool
  | [] => true
  | a :: rest => laterDupsPlaced a rest && ordersInv rest

/-- Order lists the server can produce: starting from the empty store
(line 20), POST /api/orders appends an order with status placed
(lines 116-117) and PUT /api/orders/:orderId/cancel rewrites the store as
`cancelInOrders` does (lines 128-133).  The ids and owner ids of created
orders are left arbitrary, so this relation over-approximates the stores
any execution reaches. -/
inductive ReachableOrders : List Order → Prop where
  | init : ReachableOrders []
  | create (os : List Order) (payload : List (String × JVal)) (uid oid : String) :
      ReachableOrders os →
      ReachableOrders (os ++ [{ payload := payload, userId := uid, id := oid,
                                status := "placed" }])
  | cancel (os os' : List Order) (uid oid : String) (o' : Order) :
      ReachableOrders os → cancelInOrders uid oid os = .ok (os', o') →
      ReachableOrders os'

/-- Fixture: a registered customer with id A. -/
def userA : User :=
  { id := "A", name := JVal.str "Alice", email := JVal.str "a@x.com",
    mobile := JVal.null, password := JVal.str "p", address := JVal.str "",
    profilePic := JVal.str "", isAdmin := false }

/-- Fixture: a registered customer with id B. -/
def userB : User :=
  { id := "B", name := JVal.str "Bob", email := JVal.str "b@x.com",
    mobile := JVal.null, password := JVal.str "q", address := JVal.str "",
    profilePic := JVal.str "", isAdmin := false }

/-- Fixture: an order of user A whose id collides with an order of user B,
as two POST /api/orders calls in the same millisecond produce. -/
def orderA5 : Order := { payload := [], userId := "A", id := "ORD-5", status := "placed" }

/-- Fixture: the order of user B sharing the id of `orderA5`. -/
def orderB5 : Order := { payload := [], userId := "B", id := "ORD-5", status := "placed" }

/-- Fixture: store holding both colliding orders. -/
def dbDupOrders : Db :=
  { users := [userA, userB], orders := [orderA5, orderB5], supportTickets := [] }

/-- Fixture: an order of the seeded admin, freshly placed. -/
def ordPlaced : Order :=
  { payload := [], userId := "U-1670000000000", id := "ORD-1", status := "placed" }

/-- Fixture: the same order after one cancellation. -/
def ordCancelled : Order :=
  { payload := [], userId := "U-1670000000000", id := "ORD-1", status := "cancelled" }

/-- Fixture: store in which the admin already cancelled the order. -/
def dbCancelled : Db :=
  { users := [adminUser], orders := [ordCancelled], supportTickets := [] }

/-- Fixture: the user a registration at millisecond 5 with contact a@x.com
creates. -/
def aliceReg : User :=
  registeredUser (JVal.str "Alice") (JVal.str "a@x.com") (JVal.str "p") 5

/-- Fixture: the user a second registration at the same millisecond 5 with
contact b@x.com creates. -/
def bobReg : User :=
  registeredUser (JVal.str "Bob") (JVal.str "b@x.com") (JVal.str "q") 5

/-- Fixture: a profile-update body supplying only a name; the other three
fields are absent on the request. -/
def profileBodyW : ProfileBody :=
  { name := JVal.str "New Admin", email := JVal.undef, address := JVal.undef,
    profilePic := JVal.undef }

/-! ## Helper lemmas -/

/-- Binding a success in the Except monad applies the continuation. -/
theorem bind_ok (a : α) (f : α → Except ApiError β) :
    (Except.ok a : Except ApiError α) >>= f = f a := rfl

/-- Binding a failure in the Except monad propagates the failure. -/
theorem bind_error (e : ApiError) (f : α → Except ApiError β) :
    (Except.error e : Except ApiError α) >>= f = Except.error e := rfl

/-- Inversion of the authentication middleware: a resolved user was found by
exact id match on the presented claim, which is its own id. -/
theorem resolveUser_ok (users : List User) (claim : Option String) (u : User)
    (h : resolveUser users claim = .ok u) :
    ∃ uid, claim = some uid ∧ u.id = uid ∧
      users.find? (fun w => w.id == uid) = some u := by
  cases claim with
  | none => exact absurd h (by simp [resolveUser])
  | some uid =>
    refine ⟨uid, rfl, ?_⟩
    simp only [resolveUser] at h
    split at h
    · exact absurd h (by simp)
    · cases hf : users.find? (fun w => w.id == uid) with
      | none => rw [hf] at h; exact absurd h (by simp)
      | some w =>
        rw [hf] at h
        injection h with h
        subst h
        refine ⟨?_, rfl⟩
        have := List.find?_some hf
        simpa using this

/-- The resolved user is a member of the user store. -/
theorem resolveUser_mem (users : List User) (claim : Option String) (u : User)
    (h : resolveUser users claim = .ok u) : u ∈ users := by
  obtain ⟨uid, -, -, hf⟩ := resolveUser_ok users claim u h
  exact List.mem_of_find?_eq_some hf

/-- The authentication middleware fails only with the 401 outcome. -/
theorem resolveUser_error (users : List User) (claim : Option String) (e : ApiError)
    (h : resolveUser users claim = .error e) : e = .unauthenticated := by
  cases claim with
  | none => simp only [resolveUser] at h; injection h with h; exact h.symm
  | some uid =>
    simp only [resolveUser] at h
    split at h
    · injection h with h; exact h.symm
    · cases hf : users.find? (fun w => w.id == uid) with
      | none => rw [hf] at h; injection h with h; exact h.symm
      | some w => rw [hf] at h; exact absurd h (by simp)

/-- The profile update rewrites exactly the first user carrying the id,
when the store splits around such a user none of whose predecessors carry
it. -/
theorem updateFirst_append (uid : String) (b : ProfileBody) (as bs : List User)
    (u : User) (hu : (u.id == uid) = true)
    (has : ∀ a ∈ as, (a.id == uid) = false) :
    updateFirst uid b (as ++ u :: bs) =
      some (as ++ applyProfileUpdate b u :: bs, applyProfileUpdate b u) := by
  induction as with
  | nil => simp [updateFirst, hu]
  | cons a rest ih =>
    have ha := has a (by simp)
    have ih' := ih (fun x hx => has x (by simp [hx]))
    simp [updateFirst, ha, ih']

/-- Inversion of a successful cancel on the order list: the store splits
around the first match, which was placed, and only that order's status
changes. -/
theorem cancelInOrders_ok (uid oid : String) (os os' : List Order) (o' : Order)
    (h : cancelInOrders uid oid os = .ok (os', o')) :
    ∃ l₁ w l₂, os = l₁ ++ w :: l₂ ∧ (∀ x ∈ l₁, ocMatch uid oid x = false) ∧
      ocMatch uid oid w = true ∧ w.status = "placed" ∧
      o' = { w with status := "cancelled" } ∧
      os' = l₁ ++ { w with status := "cancelled" } :: l₂ := by
  induction os generalizing os' o' with
  | nil => exact absurd h (by simp [cancelInOrders])
  | cons o rest ih =>
    simp only [cancelInOrders] at h
    by_cases hm : ocMatch uid oid o
    · rw [if_pos hm] at h
      by_cases hs : o.status = "placed"
      · rw [if_pos hs] at h
        injection h with h
        injection h with h1 h2
        exact ⟨[], o, rest, by simp, by simp, hm, hs, h2.symm, h1.symm⟩
      · rw [if_neg hs] at h
        exact absurd h (by simp)
    · rw [if_neg hm] at h
      cases hr : cancelInOrders uid oid rest with
      | error e => rw [hr] at h; exact absurd h (by simp)
      | ok p =>
        obtain ⟨rest', o''⟩ := p
        rw [hr] at h
        injection h with h
        injection h with h1 h2
        obtain ⟨l₁, w, l₂, heq, hl₁, hmw, hsw, ho', hos'⟩ := ih rest' o'' hr
        subst h2
        refine ⟨o :: l₁, w, l₂, by simp [heq], ?_, hmw, hsw, ho', ?_⟩
        · intro x hx
          rcases List.mem_cons.mp hx with rfl | hx
          · simpa using hm
          · exact hl₁ x hx
        · rw [← h1, hos']
          simp

/-- Appending a placed order preserves the order-store invariant. -/
theorem ordersInv_append_placed (os : List Order) (p : Order)
    (hp : p.status = "placed") (h : ordersInv os = true) :
    ordersInv (os ++ [p]) = true := by
  induction os with
  | nil => simp [ordersInv, laterDupsPlaced]
  | cons a rest ih =>
    simp only [ordersInv, Bool.and_eq_true] at h
    obtain ⟨h1, h2⟩ := h
    simp only [List.cons_append, ordersInv, Bool.and_eq_true]
    refine ⟨?_, ih h2⟩
    rw [laterDupsPlaced, List.all_eq_true] at h1 ⊢
    intro b hb
    rcases List.mem_append.mp hb with hbr | hbp
    · exact h1 b hbr
    · rcases List.mem_cons.mp hbp with rfl | hbn
      · simp [hp]
      · cases hbn

/-- Two orders matching the same cancel key share id and owner, so a match
of one is a match of the other. -/
theorem ocMatch_of_same (uid oid : String) (a w : Order)
    (hm : ocMatch uid oid w = true)
    (hw : (w.id == a.id && w.userId == a.userId) = true) :
    ocMatch uid oid a = true := by
  simp only [ocMatch, Bool.and_eq_true, beq_iff_eq] at hm hw ⊢
  exact ⟨hw.1 ▸ hm.1, hw.2 ▸ hm.2⟩

/-- Cancelling the first match preserves the order-store invariant. -/
theorem ordersInv_cancel (uid oid : String) (l₁ l₂ : List Order) (w : Order)
    (hm : ocMatch uid oid w = true) (hl₁ : ∀ x ∈ l₁, ocMatch uid oid x = false)
    (h : ordersInv (l₁ ++ w :: l₂) = true) :
    ordersInv (l₁ ++ { w with status := "cancelled" } :: l₂) = true := by
  induction l₁ with
  | nil =>
    simp only [List.nil_append, ordersInv, Bool.and_eq_true] at h ⊢
    exact ⟨h.1, h.2⟩
  | cons a rest ih =>
    simp only [List.cons_append, ordersInv, Bool.and_eq_true] at h ⊢
    refine ⟨?_, ih (fun x hx => hl₁ x (by simp [hx])) h.2⟩
    have ha := hl₁ a (by simp)
    have h1 := h.1
    rw [laterDupsPlaced, List.all_eq_true] at h1 ⊢
    intro b hb
    rcases List.mem_append.mp hb with hbr | hbc
    · exact h1 b (List.mem_append.mpr (Or.inl hbr))
    · rcases List.mem_cons.mp hbc with rfl | hbl
      · have hfalse : (w.id == a.id && w.userId == a.userId) = false := by
          by_contra hcon
          have htrue : (w.id == a.id && w.userId == a.userId) = true := by
            revert hcon
            cases w.id == a.id && w.userId == a.userId <;> simp
          exact absurd (ocMatch_of_same uid oid a w hm htrue) (by simp [ha])
        simp only [Bool.or_eq_true, Bool.not_eq_eq_eq_not, Bool.not_true]
        left
        simpa using hfalse
      · exact h1 b (List.mem_append.mpr (Or.inr (List.mem_cons.mpr (Or.inr hbl))))

/-- Every order store the order routes can produce satisfies the
invariant. -/
theorem reachable_ordersInv (os : List Order) (h : ReachableOrders os) :
    ordersInv os = true := by
  induction h with
  | init => rfl
  | create os payload uid oid hr ih => exact ordersInv_append_placed os _ rfl ih
  | cancel os os' uid oid o' hr hc ih =>
    obtain ⟨l₁, w, l₂, heq, hl₁, hmw, hsw, ho', hos'⟩ :=
      cancelInOrders_ok _ _ _ _ _ hc
    subst heq hos'
    exact ordersInv_cancel _ _ l₁ l₂ w hmw hl₁ ih

/-- On a store satisfying the invariant, cancelling the id of an owned
order whose status is not placed fails with the invalid-state outcome. -/
theorem cancelInOrders_invalidState (uid oid : String) (os : List Order) (o : Order)
    (hinv : ordersInv os = true) (ho : o ∈ os) (hm : ocMatch uid oid o = true)
    (hs : o.status ≠ "placed") :
    cancelInOrders uid oid os = .error .invalidState := by
  induction os with
  | nil => cases ho
  | cons a rest ih =>
    simp only [ordersInv, Bool.and_eq_true] at hinv
    rcases List.mem_cons.mp ho with rfl | hmem
    · simp [cancelInOrders, hm, hs]
    · by_cases hma : ocMatch uid oid a
      · have hsame : (o.id == a.id && o.userId == a.userId) = true := by
          simp only [ocMatch, Bool.and_eq_true, beq_iff_eq] at hm hma
          simp [beq_iff_eq, hm.1, hma.1, hm.2, hma.2]
        have := List.all_eq_true.mp hinv.1 o hmem
        simp only [hsame, Bool.not_true, Bool.false_or, beq_iff_eq] at this
        exact absurd this hs
      · simp [cancelInOrders, hma, ih hinv.2 hmem]

/-- When no order matches the cancel key, the route answers 404. -/
theorem cancelInOrders_notFound (uid oid : String) (os : List Order)
    (h : ∀ o ∈ os, ocMatch uid oid o = false) :
    cancelInOrders uid oid os = .error .notFound := by
  induction os with
  | nil => rfl
  | cons a rest ih =>
    simp [cancelInOrders, h a (by simp), ih (fun x hx => h x (by simp [hx]))]

/-! ## Claim theorems -/

/-- C1 counterexample: on the seeded store, a login request with NO contact
field at all and password admin succeeds as the seeded admin, because the
admin record has no mobile field and JS strict equality holds between the
two absent values (line 82); the claim says a missing contact always
fails with Unauthenticated. -/
theorem login_absent_contact_succeeds :
    login [adminUser] JVal.undef (JVal.str "admin") =
      .ok { id := "U-1670000000000", name := JVal.str "Admin", isAdmin := true } := rfl

/-- C1 (amended): login succeeds exactly when some stored user matches the
supplied contact and password under JS strict equality on possibly-absent
values — in particular an absent supplied field can match an absent
stored field — and then answers with the first matching user's id, name
and admin flag (the response type carries no password); otherwise it
fails with Unauthenticated. -/
theorem login_characterization (users : List User) (contact pw : JVal) :
    (isSuccess (login users contact pw) = true ↔
      ∃ u ∈ users, loginMatch contact pw u = true) ∧
    (∀ v, login users contact pw = .ok v →
      ∃ as u bs, users = as ++ u :: bs ∧ loginMatch contact pw u = true ∧
        (∀ a ∈ as, loginMatch contact pw a = false) ∧
        v = { id := u.id, name := u.name, isAdmin := u.isAdmin }) ∧
    ((∀ u ∈ users, loginMatch contact pw u = false) →
      login users contact pw = .error .unauthenticated) := by
  refine ⟨?_, ?_, ?_⟩
  · cases hf : users.find? (loginMatch contact pw) with
    | none =>
      simp only [login, hf, isSuccess]
      constructor
      · intro h; exact absurd h (by simp)
      · rintro ⟨u, hu, hm⟩
        have := List.find?_eq_none.mp hf u hu
        simp [hm] at this
    | some u =>
      simp only [login, hf, isSuccess]
      exact ⟨fun _ => ⟨u, List.mem_of_find?_eq_some hf, List.find?_some hf⟩,
        fun _ => trivial⟩
  · intro v hv
    cases hf : users.find? (loginMatch contact pw) with
    | none =>
      rw [login.eq_def, hf] at hv
      exact absurd hv (by simp)
    | some u =>
      rw [login.eq_def, hf] at hv
      injection hv with hv
      obtain ⟨hpu, as, bs, heq, hprev⟩ := List.find?_eq_some.mp hf
      refine ⟨as, u, bs, heq, hpu, ?_, hv.symm⟩
      intro a ha
      have := hprev a ha
      simpa using this
  · intro hall
    cases hf : users.find? (loginMatch contact pw) with
    | none => rw [login.eq_def, hf]
    | some u =>
      have hm := List.find?_some hf
      rw [hall u (List.mem_of_find?_eq_some hf)] at hm
      exact absurd hm (by simp)

/-- Witness for the amended C1 theorem at a concrete input. -/
theorem login_characterization_witness :
    login [adminUser] (JVal.str "nobody") (JVal.str "x") =
      .error .unauthenticated :=
  (login_characterization [adminUser] (JVal.str "nobody") (JVal.str "x")).2.2
    (by decide)

/-- C2 counterexample: two registrations in the same millisecond (the same
`Date.now()` value 5, line 67) both succeed and create users sharing the
id U-5, so identifiers after a sequence of registrations are not pairwise
distinct. -/
theorem register_id_collision :
    register [adminUser] (JVal.str "Alice") (JVal.str "a@x.com") (JVal.str "p") 5 =
      .ok ([adminUser, aliceReg], { id := "U-5", name := JVal.str "Alice" }) ∧
    register [adminUser, aliceReg] (JVal.str "Bob") (JVal.str "b@x.com")
        (JVal.str "q") 5 =
      .ok ([adminUser, aliceReg, bobReg], { id := "U-5", name := JVal.str "Bob" }) ∧
    aliceReg.id = "U-5" ∧ bobReg.id = "U-5" ∧
    List.count "U-5" (List.map User.id [adminUser, aliceReg, bobReg]) = 2 :=
  ⟨rfl, rfl, rfl, rfl, rfl⟩

/-- C2 (amended): a successful registration appends a user whose id is
`U-` followed by the `Date.now()` reading, so identifiers stay pairwise
distinct provided no existing user already carries the id generated at
that millisecond — the code enforces no such freshness itself. -/
theorem register_fresh_id_nodup (users : List User) (name contact pw : JVal)
    (now : Nat) (s' : List User) (v : RegisterUserView)
    (hreg : register users name contact pw now = .ok (s', v))
    (hfresh : ∀ u ∈ users, u.id ≠ "U-" ++ toString now)
    (hnodup : (users.map User.id).Nodup) :
    v.id = "U-" ++ toString now ∧ (s'.map User.id).Nodup := by
  rw [register] at hreg
  split at hreg
  · exact absurd hreg (by simp)
  · split at hreg
    · exact absurd hreg (by simp)
    · injection hreg with hreg
      injection hreg with h1 h2
      subst h1
      subst h2
      refine ⟨rfl, ?_⟩
      rw [List.map_append, List.nodup_append]
      refine ⟨hnodup, by simp, ?_⟩
      intro a ha hb
      simp only [List.map_cons, List.map_nil, List.mem_singleton] at hb
      obtain ⟨u, hu, rfl⟩ := List.mem_map.mp ha
      exact hfresh u hu (by simpa [registeredUser] using hb)

/-- Witness for the amended C2 theorem at a concrete input. -/
theorem register_fresh_id_nodup_witness :
    ({ id := "U-" ++ toString 7, name := JVal.str "Bob" } : RegisterUserView).id =
      "U-" ++ toString 7 ∧
    (([adminUser] ++ [registeredUser (JVal.str "Bob") (JVal.str "b@x.com")
        (JVal.str "pw") 7]).map User.id).Nodup :=
  register_fresh_id_nodup [adminUser] (JVal.str "Bob") (JVal.str "b@x.com")
    (JVal.str "pw") 7 _ _ rfl (by decide) (by decide)

/-- C8: with all three inputs truthy, registration fails with Conflict
exactly when some stored user already carries the contact in the field
its classification selects (email when it contains an at sign, mobile
otherwise, line 62), and with a contact distinct from every stored user's
corresponding field it succeeds, answering only the fresh id and the
name. -/
theorem register_conflict_iff (users : List User) (name contact pw : JVal)
    (now : Nat) (hn : name.truthy = true) (hc : contact.truthy = true)
    (hp : pw.truthy = true) :
    (register users name contact pw now = .error .conflict ↔
      ∃ u ∈ users, (if contact.hasAt then u.email else u.mobile) = contact) ∧
    ((∀ u ∈ users, (if contact.hasAt then u.email else u.mobile) ≠ contact) →
      register users name contact pw now =
        .ok (users ++ [registeredUser name contact pw now],
             { id := "U-" ++ toString now, name := name })) := by
  have hguard : (!name.truthy || !contact.truthy || !pw.truthy) = false := by
    simp [hn, hc, hp]
  have hstep : register users name contact pw now =
      if contactTaken users contact then .error .conflict
      else .ok (users ++ [registeredUser name contact pw now],
                { id := "U-" ++ toString now, name := name }) := by
    rw [register, hguard]
    simp
  have htaken : contactTaken users contact = true ↔
      ∃ u ∈ users, (if contact.hasAt then u.email else u.mobile) = contact := by
    simp [contactTaken, List.any_eq_true]
  constructor
  · rw [hstep]
    cases ht : contactTaken users contact with
    | true =>
      simp only [if_pos rfl]
      exact ⟨fun _ => htaken.mp ht, fun _ => rfl⟩
    | false =>
      simp only [Bool.false_eq_true, if_false]
      constructor
      · intro h
        exact absurd h (by simp)
      · intro hex
        have := htaken.mpr hex
        rw [ht] at this
        exact absurd this (by simp)
  · intro hall
    rw [hstep]
    cases ht : contactTaken users contact with
    | true =>
      obtain ⟨u, hu, heq⟩ := htaken.mp ht
      exact absurd heq (hall u hu)
    | false => simp

/-- Witness for the C8 theorem at a concrete input. -/
theorem register_conflict_iff_witness :
    register [adminUser] (JVal.str "Bob") (JVal.str "b@x.com") (JVal.str "pw") 7 =
      .ok ([adminUser] ++ [registeredUser (JVal.str "Bob") (JVal.str "b@x.com")
             (JVal.str "pw") 7],
           { id := "U-" ++ toString 7, name := JVal.str "Bob" }) :=
  (register_conflict_iff [adminUser] (JVal.str "Bob") (JVal.str "b@x.com")
    (JVal.str "pw") 7 rfl rfl rfl).2 (by decide)

/-- C3 counterexample: the source builds createdAt and the thread entry
timestamp with two separate `new Date()` calls (line 170); when the clock
advances between them (here reads 2 and 3) the single thread entry's
timestamp differs from the ticket's creation timestamp, while the claim
asserts they are equal. -/
theorem ticket_timestamps_differ :
    submitTicket dbInit (some "U-1670000000000") (JVal.str "help") 1 2 3 =
      .ok ({ dbInit with supportTickets :=
               [mkTicket adminUser (JVal.str "help") 1 2 3] },
           mkTicket adminUser (JVal.str "help") 1 2 3) ∧
    (mkTicket adminUser (JVal.str "help") 1 2 3).createdAt = 2 ∧
    List.map ThreadEntry.at_ (mkTicket adminUser (JVal.str "help") 1 2 3).thread
      = [3] ∧
    ((mkTicket adminUser (JVal.str "help") 1 2 3).createdAt == 3) = false :=
  ⟨rfl, rfl, rfl, rfl⟩

/-- C3 (amended): for every authenticated user, submitting a ticket creates
a thread of length exactly one whose entry has sender role customer and
text the submitted message; the entry timestamp comes from a clock read
separate from the creation-timestamp read, and the two agree exactly when
the clock did not advance between them. -/
theorem submit_ticket_thread (db : Db) (claim : Option String) (m : JVal)
    (tId tC tA : Nat) (u : User)
    (hres : resolveUser db.users claim = .ok u) :
    submitTicket db claim m tId tC tA =
      .ok ({ db with supportTickets :=
               db.supportTickets ++ [mkTicket u m tId tC tA] },
           mkTicket u m tId tC tA) ∧
    (mkTicket u m tId tC tA).thread.length = 1 ∧
    (∀ e ∈ (mkTicket u m tId tC tA).thread,
      e.sender = "customer" ∧ e.text = m ∧ e.at_ = tA) ∧
    (mkTicket u m tId tC tA).createdAt = tC ∧
    (tC = tA → ∀ e ∈ (mkTicket u m tId tC tA).thread,
      e.at_ = (mkTicket u m tId tC tA).createdAt) := by
  refine ⟨?_, rfl, ?_, rfl, ?_⟩
  · unfold submitTicket
    rw [hres]
    rfl
  · intro e he
    simp only [mkTicket, List.mem_singleton] at he
    subst he
    exact ⟨rfl, rfl, rfl⟩
  · intro hEq e he
    simp only [mkTicket, List.mem_singleton] at he
    subst he
    simpa [mkTicket] using hEq.symm

/-- Witness for the amended C3 theorem at a concrete input. -/
theorem submit_ticket_thread_witness :
    submitTicket dbInit (some "U-1670000000000") (JVal.str "hi") 4 9 9 =
      .ok ({ dbInit with supportTickets :=
               dbInit.supportTickets ++ [mkTicket adminUser (JVal.str "hi") 4 9 9] },
           mkTicket adminUser (JVal.str "hi") 4 9 9) ∧
    (mkTicket adminUser (JVal.str "hi") 4 9 9).thread.length = 1 :=
  ⟨(submit_ticket_thread dbInit (some "U-1670000000000") (JVal.str "hi") 4 9 9
      adminUser rfl).1,
   (submit_ticket_thread dbInit (some "U-1670000000000") (JVal.str "hi") 4 9 9
      adminUser rfl).2.1⟩

/-- C4: a successful profile update overwrites exactly name, email, address
and profilePic with the body values — an omitted body field overwrites
with the absent value — and leaves id, password, mobile and the admin
flag of the record, and the other stores, unchanged (line 106). -/
theorem update_profile_frame (db : Db) (claim : Option String) (b : ProfileBody)
    (u : User) (hres : resolveUser db.users claim = .ok u) :
    isSuccess (updateProfile db claim b) = true ∧
    (∀ db' u', updateProfile db claim b = .ok (db', u') →
      u' = applyProfileUpdate b u ∧
      u'.name = b.name ∧ u'.email = b.email ∧ u'.address = b.address ∧
      u'.profilePic = b.profilePic ∧ u'.id = u.id ∧ u'.password = u.password ∧
      u'.mobile = u.mobile ∧ u'.isAdmin = u.isAdmin ∧
      db'.orders = db.orders ∧ db'.supportTickets = db.supportTickets) := by
  obtain ⟨uid, hclaim, hid, hf⟩ := resolveUser_ok db.users claim u hres
  obtain ⟨hpu, as, bs, heq, hprev⟩ := List.find?_eq_some.mp hf
  have hasf : ∀ a ∈ as, (a.id == u.id) = false := by
    intro a ha
    have := hprev a ha
    rw [hid]
    simpa using this
  have hupd : updateFirst u.id b db.users =
      some (as ++ applyProfileUpdate b u :: bs, applyProfileUpdate b u) := by
    rw [heq]
    exact updateFirst_append u.id b as bs u (by simp) hasf
  have hrun : updateProfile db claim b =
      .ok ({ db with users := as ++ applyProfileUpdate b u :: bs },
           applyProfileUpdate b u) := by
    simp only [updateProfile, hres, bind_ok, hupd]
    rfl
  constructor
  · rw [hrun]
    rfl
  · intro db' u' hok
    rw [hrun] at hok
    injection hok with hok
    injection hok with h1 h2
    subst h1
    subst h2
    exact ⟨rfl, rfl, rfl, rfl, rfl, rfl, rfl, rfl, rfl, rfl, rfl⟩

/-- Witness for the C4 theorem at a concrete input. -/
theorem update_profile_frame_witness :
    isSuccess (updateProfile dbInit (some "U-1670000000000") profileBodyW) = true :=
  (update_profile_frame dbInit (some "U-1670000000000") profileBodyW adminUser
    rfl).1

/-- C5: the success response of the profile update embeds the full
post-update stored user record — the returned value is a member of the
user store — and in particular its password field still holds the stored
plaintext password, which is therefore sent to the caller (line 107);
the profile and admin listings instead answer with `UserProfileView`,
which carries no password field. -/
theorem update_profile_returns_record (db : Db) (claim : Option String)
    (b : ProfileBody) (u : User) (hres : resolveUser db.users claim = .ok u) :
    ∀ db' u', updateProfile db claim b = .ok (db', u') →
      u' ∈ db'.users ∧ u'.password = u.password := by
  obtain ⟨uid, hclaim, hid, hf⟩ := resolveUser_ok db.users claim u hres
  obtain ⟨hpu, as, bs, heq, hprev⟩ := List.find?_eq_some.mp hf
  have hasf : ∀ a ∈ as, (a.id == u.id) = false := by
    intro a ha
    have := hprev a ha
    rw [hid]
    simpa using this
  have hupd : updateFirst u.id b db.users =
      some (as ++ applyProfileUpdate b u :: bs, applyProfileUpdate b u) := by
    rw [heq]
    exact updateFirst_append u.id b as bs u (by simp) hasf
  have hrun : updateProfile db claim b =
      .ok ({ db with users := as ++ applyProfileUpdate b u :: bs },
           applyProfileUpdate b u) := by
    simp only [updateProfile, hres, bind_ok, hupd]
    rfl
  intro db' u' hok
  rw [hrun] at hok
  injection hok with hok
  injection hok with h1 h2
  subst h1
  subst h2
  exact ⟨List.mem_append_right as (List.mem_cons_self _ _), rfl⟩

/-- Witness for the C5 theorem at a concrete input. -/
theorem update_profile_returns_record_witness :
    applyProfileUpdate profileBodyW adminUser ∈
      ({ dbInit with users := [applyProfileUpdate profileBodyW adminUser] } : Db).users ∧
    (applyProfileUpdate profileBodyW adminUser).password = adminUser.password :=
  update_profile_returns_record dbInit (some "U-1670000000000") profileBodyW
    adminUser rfl
    { dbInit with users := [applyProfileUpdate profileBodyW adminUser] }
    (applyProfileUpdate profileBodyW adminUser) rfl

/-- Pure in the Except monad is the success constructor. -/
theorem pure_eq_ok (a : α) : (pure a : Except ApiError α) = .ok a := rfl

/-- C6: on every order store the order routes can produce, cancelling an
owned order whose status is not placed fails with InvalidState (and the
failing route mutates nothing, as the error branch of the embedding
carries no store), and a successful cancel transitions exactly one owned
placed order to cancelled, leaving every other record unchanged. -/
theorem cancel_order_state_transition (db : Db) (claim : Option String) (u : User)
    (hreach : ReachableOrders db.orders)
    (hres : resolveUser db.users claim = .ok u) :
    (∀ o ∈ db.orders, o.userId = u.id → o.status ≠ "placed" →
      cancelOrder db claim o.id = .error .invalidState) ∧
    (∀ oid db' o', cancelOrder db claim oid = .ok (db', o') →
      ∃ l₁ w l₂, db.orders = l₁ ++ w :: l₂ ∧ w.id = oid ∧ w.userId = u.id ∧
        w.status = "placed" ∧ o' = { w with status := "cancelled" } ∧
        db'.orders = l₁ ++ { w with status := "cancelled" } :: l₂ ∧
        db'.users = db.users ∧ db'.supportTickets = db.supportTickets) := by
  constructor
  · intro o ho hown hstat
    have hm : ocMatch u.id o.id o = true := by
      simp [ocMatch, hown]
    have hinv := reachable_ordersInv db.orders hreach
    have hcan := cancelInOrders_invalidState u.id o.id db.orders o hinv ho hm hstat
    simp only [cancelOrder, hres, bind_ok, hcan]
  · intro oid db' o' hok
    simp only [cancelOrder, hres, bind_ok] at hok
    cases hc : cancelInOrders u.id oid db.orders with
    | error e =>
      rw [hc] at hok
      exact absurd hok (by simp)
    | ok p =>
      obtain ⟨orders', o''⟩ := p
      rw [hc] at hok
      simp only [pure_eq_ok] at hok
      injection hok with hok
      injection hok with h1 h2
      obtain ⟨l₁, w, l₂, heq, hl₁, hmw, hsw, ho', hos'⟩ :=
        cancelInOrders_ok _ _ _ _ _ hc
      simp only [ocMatch, Bool.and_eq_true, beq_iff_eq] at hmw
      subst h2
      refine ⟨l₁, w, l₂, heq, hmw.1, hmw.2, hsw, ho', ?_, ?_, ?_⟩
      · rw [← h1]
        exact hos'
      · rw [← h1]
      · rw [← h1]

/-- Witness for the C6 theorem at a concrete input: the reachable store
holding one cancelled admin order, on which a repeated cancel fails with
InvalidState. -/
theorem cancel_order_state_transition_witness :
    cancelOrder dbCancelled (some "U-1670000000000") "ORD-1" =
      .error .invalidState := by
  have h1 : ReachableOrders [ordPlaced] :=
    ReachableOrders.create [] [] "U-1670000000000" "ORD-1" ReachableOrders.init
  have h2 : ReachableOrders [ordCancelled] :=
    ReachableOrders.cancel [ordPlaced] [ordCancelled] "U-1670000000000" "ORD-1"
      ordCancelled h1 rfl
  exact (cancel_order_state_transition dbCancelled (some "U-1670000000000")
    adminUser h2 rfl).1 ordCancelled (by decide) rfl (by decide)

/-- C7 counterexample: in a reachable store two orders of different owners
share the id ORD-5 (two creations in the same millisecond).  ORD-5 is the
identifier of an order owned by user A, yet user B cancelling ORD-5
succeeds — cancelling B's own colliding order — instead of failing with
NotFound as the claim states. -/
theorem cancel_cross_owner_id_succeeds :
    ReachableOrders dbDupOrders.orders ∧
    orderA5 ∈ dbDupOrders.orders ∧ orderA5.id = "ORD-5" ∧
    (orderA5.userId == "B") = false ∧
    resolveUser dbDupOrders.users (some "B") = .ok userB ∧
    cancelOrder dbDupOrders (some "B") "ORD-5" =
      .ok ({ dbDupOrders with
               orders := [orderA5, { orderB5 with status := "cancelled" }] },
           { orderB5 with status := "cancelled" }) := by
  refine ⟨?_, by decide, rfl, rfl, rfl, rfl⟩
  exact ReachableOrders.create [orderA5] [] "B" "ORD-5"
    (ReachableOrders.create [] [] "A" "ORD-5" ReachableOrders.init)

/-- C7 (amended): listing orders returns exactly the caller-owned orders in
store order; cancelling an id carried by no caller-owned order fails with
NotFound and mutates nothing; and in every case a cancel only ever
returns and rewrites an order owned by the caller — an id borne by
another user's order can still cancel a caller-owned order when the two
collide on id. -/
theorem orders_ownership (db : Db) (claim : Option String) (u : User)
    (hres : resolveUser db.users claim = .ok u) :
    listOrders db claim = .ok (db.orders.filter (fun o => o.userId == u.id)) ∧
    (∀ oid, (∀ o ∈ db.orders, o.userId = u.id → o.id ≠ oid) →
      cancelOrder db claim oid = .error .notFound) ∧
    (∀ oid db' o', cancelOrder db claim oid = .ok (db', o') →
      o'.userId = u.id ∧
      ∃ l₁ w l₂, db.orders = l₁ ++ w :: l₂ ∧ w.userId = u.id ∧
        db'.orders = l₁ ++ { w with status := "cancelled" } :: l₂) := by
  refine ⟨?_, ?_, ?_⟩
  · simp only [listOrders, hres, bind_ok]
    rfl
  · intro oid hall
    have hnone : ∀ o ∈ db.orders, ocMatch u.id oid o = false := by
      intro o ho
      by_cases him : o.userId = u.id
      · have hne : (o.id == oid) = false :=
          beq_eq_false_iff_ne.mpr (hall o ho him)
        simp [ocMatch, hne]
      · have hne : (o.userId == u.id) = false := beq_eq_false_iff_ne.mpr him
        simp [ocMatch, hne]
    have hcan := cancelInOrders_notFound u.id oid db.orders hnone
    simp only [cancelOrder, hres, bind_ok, hcan]
  · intro oid db' o' hok
    simp only [cancelOrder, hres, bind_ok] at hok
    cases hc : cancelInOrders u.id oid db.orders with
    | error e =>
      rw [hc] at hok
      exact absurd hok (by simp)
    | ok p =>
      obtain ⟨orders', o''⟩ := p
      rw [hc] at hok
      simp only [pure_eq_ok] at hok
      injection hok with hok
      injection hok with h1 h2
      obtain ⟨l₁, w, l₂, heq, hl₁, hmw, hsw, ho', hos'⟩ :=
        cancelInOrders_ok _ _ _ _ _ hc
      simp only [ocMatch, Bool.and_eq_true, beq_iff_eq] at hmw
      subst h2
      constructor
      · rw [ho']
        exact hmw.2
      · refine ⟨l₁, w, l₂, heq, hmw.2, ?_⟩
        rw [← h1]
        exact hos'

/-- Witness for the amended C7 theorem at a concrete input. -/
theorem orders_ownership_witness :
    listOrders dbCancelled (some "U-1670000000000") =
      .ok (dbCancelled.orders.filter (fun o => o.userId == adminUser.id)) ∧
    cancelOrder dbCancelled (some "U-1670000000000") "ORD-9" =
      .error .notFound :=
  ⟨(orders_ownership dbCancelled (some "U-1670000000000") adminUser rfl).1,
   (orders_ownership dbCancelled (some "U-1670000000000") adminUser rfl).2.1
     "ORD-9" (by decide)⟩

/-- C9: every admin route first resolves the identity — failing with
Unauthenticated when the claim is absent, empty or matches no user (the
only failure the resolver produces) — and then gates on the admin flag,
failing with Forbidden for every resolved non-admin and answering for
every resolved admin (lines 30-49, 144-159). -/
theorem admin_gate_outcomes (db : Db) (claim : Option String) :
    (∀ e, resolveUser db.users claim = .error e → e = .unauthenticated) ∧
    (resolveUser db.users claim = .error .unauthenticated →
      adminStats db claim = .error .unauthenticated ∧
      adminListUsers db claim = .error .unauthenticated ∧
      adminListOrders db claim = .error .unauthenticated) ∧
    (∀ u, resolveUser db.users claim = .ok u → u.isAdmin = false →
      adminStats db claim = .error .forbidden ∧
      adminListUsers db claim = .error .forbidden ∧
      adminListOrders db claim = .error .forbidden) ∧
    (∀ u, resolveUser db.users claim = .ok u → u.isAdmin = true →
      adminStats db claim = .ok (db.users.length, db.orders.length) ∧
      adminListUsers db claim = .ok (db.users.map stripPassword) ∧
      adminListOrders db claim = .ok db.orders) := by
  refine ⟨resolveUser_error db.users claim, ?_, ?_, ?_⟩
  · intro hres
    refine ⟨?_, ?_, ?_⟩ <;>
      simp only [adminStats, adminListUsers, adminListOrders, hres, bind_error]
  · intro u hres hadm
    have hreq : requireAdmin u = .error .forbidden := by
      simp [requireAdmin, hadm]
    refine ⟨?_, ?_, ?_⟩ <;>
      simp only [adminStats, adminListUsers, adminListOrders, hres, bind_ok,
        hreq, bind_error]
  · intro u hres hadm
    have hreq : requireAdmin u = .ok () := by
      simp [requireAdmin, hadm]
    refine ⟨?_, ?_, ?_⟩ <;>
    · simp only [adminStats, adminListUsers, adminListOrders, hres, bind_ok, hreq]
      rfl

/-- Witness for the C9 theorem at concrete inputs covering the three
outcomes. -/
theorem admin_gate_outcomes_witness :
    adminStats dbInit (some "U-1670000000000") =
      .ok (dbInit.users.length, dbInit.orders.length) ∧
    adminStats dbInit none = .error .unauthenticated ∧
    adminStats dbDupOrders (some "B") = .error .forbidden :=
  ⟨((admin_gate_outcomes dbInit (some "U-1670000000000")).2.2.2 adminUser rfl
      rfl).1,
   ((admin_gate_outcomes dbInit none).2.1 rfl).1,
   ((admin_gate_outcomes dbDupOrders (some "B")).2.2.1 userB rfl rfl).1⟩

/-- C10: the profile route answers the resolved record through
`stripPassword`, whose result type `UserProfileView` carries no password
field while every other field is copied unchanged, and the admin user
listing answers the same view of every stored user (lines 97, 153). -/
theorem profile_password_stripped (db : Db) (claim : Option String) (u : User)
    (hres : resolveUser db.users claim = .ok u) :
    getProfile db claim = .ok (stripPassword u) ∧
    (u.isAdmin = true →
      adminListUsers db claim = .ok (db.users.map stripPassword)) ∧
    (∀ w : User, (stripPassword w).id = w.id ∧ (stripPassword w).name = w.name ∧
      (stripPassword w).email = w.email ∧ (stripPassword w).mobile = w.mobile ∧
      (stripPassword w).address = w.address ∧
      (stripPassword w).profilePic = w.profilePic ∧
      (stripPassword w).isAdmin = w.isAdmin) := by
  refine ⟨?_, ?_, fun w => ⟨rfl, rfl, rfl, rfl, rfl, rfl, rfl⟩⟩
  · simp only [getProfile, hres, bind_ok]
    rfl
  · intro hadm
    have hreq : requireAdmin u = .ok () := by
      simp [requireAdmin, hadm]
    simp only [adminListUsers, hres, bind_ok, hreq]
    rfl

/-- Witness for the C10 theorem at a concrete input. -/
theorem profile_password_stripped_witness :
    getProfile dbInit (some "U-1670000000000") = .ok (stripPassword adminUser) ∧
    adminListUsers dbInit (some "U-1670000000000") =
      .ok (dbInit.users.map stripPassword) :=
  ⟨(profile_password_stripped dbInit (some "U-1670000000000") adminUser rfl).1,
   (profile_password_stripped dbInit (some "U-1670000000000") adminUser rfl).2.1
     rfl⟩
